import Mathlib

/-!
Verification development for `src/server/src/scripts/top-workplaces.ts`:
a single-file Node.js script that fetches paginated workplace and shift
collections over HTTP, counts completed shifts per active workplace, and
prints the top three workplaces as pretty-printed JSON.

The shallow embedding below translates the script's data model and logic
into Lean.  I/O effects are made explicit:
* the HTTP layer is modelled by an `HttpOutcome` value (transport failure
  or a response with a status code and body) and an abstract JSON parser
  `String → Option α` standing for `JSON.parse`;
* the pagination loops are modelled with explicit fuel (the source loop is
  unbounded; `none` marks runs that do not terminate within the fuel);
* `new Date()` / date parsing is modelled by a reference time `now : Int`
  (milliseconds) and a parse function `String → Option Int` where `none`
  stands for an invalid date (whose JS comparison via NaN is always false);
* process output is modelled as the list of strings written to stdout
  together with the exit code.
-/

/-- Workplace record, from the `Workplace` interface (lines 7-11):
`id`, `name`, and an integer `status` where 0 means active. -/
structure Workplace where
  id : Int
  name : String
  status : Int
deriving DecidableEq, Repr

/-- Shift record, from the `Shift` interface (lines 14-20): `workerId` is
nullable (assigned or not), `cancelledAt` is nullable (null means not
cancelled), `endAt` is a date string. -/
structure Shift where
  id : Int
  workplaceId : Int
  workerId : Option Int
  cancelledAt : Option String
  endAt : String
deriving DecidableEq, Repr

/-- Output record, from the `WorkplaceResult` interface (lines 23-26). -/
structure WorkplaceResult where
  name : String
  shifts : Nat
deriving DecidableEq, Repr

/-- One page envelope `\x7b data, links: \x7b next \x7d \x7d` as consumed by the
pagination loops (lines 88-91 and 110-113). -/
structure Page (α : Type) where
  data : List α
  next : Option String
deriving DecidableEq, Repr

/-- Error taxonomy of `fetchJson` (lines 46-78): the code rejects with a
"Failed to parse JSON" error, an "HTTP error! status: s" error, or the
transport error object from `req.on("error")`. -/
inductive FetchError where
  | transport
  | httpStatus (status : Nat)
  | jsonParse
deriving DecidableEq, Repr

/-- Outcome of one underlying HTTP GET: either the connection fails before
a response completes, or a full response with a status code and body is
received.  A missing `statusCode` is modelled as status 0 (falsy in the
source's truthiness test on line 57). -/
inductive HttpOutcome where
  | transportFailure
  | response (status : Nat) (body : String)
deriving DecidableEq, Repr

/-- Embedding of `fetchJson` (lines 29-79): on a completed response whose
status code is truthy and in [200, 300), parse the body as JSON and return
the value, rejecting with a parse error when the body is invalid; on any
other status reject with an HTTP-status error carrying the observed code;
on connection failure reject with the transport error.  `parseJson` stands
for `JSON.parse` (`none` = exception). -/
def fetchJson (parseJson : String → Option α) : HttpOutcome → Except FetchError α
  | .transportFailure => .error .transport
  | .response status body =>
    if status != 0 && decide (200 ≤ status) && decide (status < 300) then
      match parseJson body with
      | some v => .ok v
      | none => .error .jsonParse
    else .error (.httpStatus status)

/-- Embedding of the shared pagination loop of `fetchAllWorkplaces`
(lines 82-101) and `fetchAllShifts` (lines 104-123): starting from a URL,
fetch the page, append its `data` to the accumulator, continue with
`links.next` while it is non-null.  `fetch` is the page-level oracle
(composition of `fetchJson` with the endpoint's envelope decoding), `acc`
and `log` accumulate the items gathered and the URLs requested so far
(the log records that requests are issued strictly sequentially), and
`fuel` bounds the unbounded source loop: `none` means the loop did not
finish within `fuel` requests. -/
def fetchAllPagesAux (fetch : String → Except FetchError (Page α)) :
    Nat → String → List α → List String →
    Option (Except FetchError (List α × List String))
  | 0, _, _, _ => none
  | fuel + 1, url, acc, log =>
    match fetch url with
    | .error e => some (.error e)
    | .ok page =>
      match page.next with
      | none => some (.ok (acc ++ page.data, log ++ [url]))
      | some nextUrl => fetchAllPagesAux fetch fuel nextUrl (acc ++ page.data) (log ++ [url])

/-- Run the pagination loop from a starting URL with empty accumulators. -/
def fetchAllPages (fetch : String → Except FetchError (Page α)) (fuel : Nat)
    (url : String) : Option (Except FetchError (List α × List String)) :=
  fetchAllPagesAux fetch fuel url [] []

/-- Starting URL of the workplaces pagination run (line 84). -/
def workplacesUrl : String := "http://localhost:3000/workplaces"

/-- Starting URL of the shifts pagination run (line 106). -/
def shiftsUrl : String := "http://localhost:3000/shifts"

/-- Embedding of `fetchAllWorkplaces` (lines 82-101). -/
def fetchAllWorkplaces (fetch : String → Except FetchError (Page Workplace))
    (fuel : Nat) : Option (Except FetchError (List Workplace × List String)) :=
  fetchAllPages fetch fuel workplacesUrl

/-- Embedding of `fetchAllShifts` (lines 104-123). -/
def fetchAllShifts (fetch : String → Except FetchError (Page Shift))
    (fuel : Nat) : Option (Except FetchError (List Shift × List String)) :=
  fetchAllPages fetch fuel shiftsUrl

/-- Embedding of `isShiftCompleted` (lines 126-136): the shift has a worker
(`workerId !== null`), is not cancelled (`cancelledAt === null`), and its
end time is before `now` (`new Date(shift.endAt) < new Date()`).  `parse`
stands for JS date parsing (`none` = Invalid Date, i.e. NaN, whose `<`
comparison is always false); `now` is the wall-clock reference time. -/
def isShiftCompleted (parse : String → Option Int) (now : Int) (shift : Shift) : Bool :=
  shift.workerId.isSome && shift.cancelledAt.isNone &&
    (match parse shift.endAt with
     | some endTime => decide (endTime < now)
     | none => false)

/-- `Map.get` on the association-list model of the JS `Map` keyed by
workplace id (line 153): the value at the first matching key, if any. -/
def mapGet (m : List (Int × Nat)) (k : Int) : Option Nat :=
  match m with
  | [] => none
  | (key, v) :: rest => if key == k then some v else mapGet rest k

/-- `Map.set` on the association-list model: replace the value at an
existing key in place, otherwise append the new entry (JS `Map` keeps
insertion order). -/
def mapSet (m : List (Int × Nat)) (k : Int) (v : Nat) : List (Int × Nat) :=
  match m with
  | [] => [(k, v)]
  | (key, v₀) :: rest =>
    if key == k then (key, v) :: rest else (key, v₀) :: mapSet rest k v

/-- Embedding of the counting loop (lines 153-158): for each completed
shift, bump the count stored under its `workplaceId`
(`counts.get(id) || 0` then `counts.set(id, count + 1)`). -/
def buildCounts (completedShifts : List Shift) : List (Int × Nat) :=
  completedShifts.foldl
    (fun m s => mapSet m s.workplaceId ((mapGet m s.workplaceId).getD 0 + 1)) []

/-- Insert a result before the first strictly smaller entry, after all
entries with a greater-or-equal count.  Folding this over the list is a
stable descending sort, the semantics ECMAScript 2019 prescribes for
`Array.prototype.sort` with the comparator `(a, b) => b.shifts - a.shifts`
on line 167 (any two stable sorts under the same total preorder agree). -/
def insertDesc (x : WorkplaceResult) : List WorkplaceResult → List WorkplaceResult
  | [] => [x]
  | y :: ys => if y.shifts ≤ x.shifts then x :: y :: ys else y :: insertDesc x ys

/-- Stable descending sort by `shifts`, modelling
`.sort((a, b) => b.shifts - a.shifts)` on line 167. -/
def sortDesc : List WorkplaceResult → List WorkplaceResult
  | [] => []
  | x :: xs => insertDesc x (sortDesc xs)

/-- Embedding of the synchronous aggregation part of `getTopWorkplaces`
(lines 139-171) with the two fetched collections passed in: keep active
workplaces (status == 0), keep completed shifts, count completed shifts
per workplace id, map each active workplace to its name and count
(`counts.get(id) || 0`), drop zero counts, sort by count descending, keep
the first three. -/
def getTopWorkplaces (parse : String → Option Int) (now : Int)
    (workplaces : List Workplace) (shifts : List Shift) : List WorkplaceResult :=
  let activeWorkplaces := workplaces.filter (fun w => w.status == 0)
  let completedShifts := shifts.filter (isShiftCompleted parse now)
  let workplaceShiftCounts := buildCounts completedShifts
  ((activeWorkplaces.map
      (fun w => WorkplaceResult.mk w.name ((mapGet workplaceShiftCounts w.id).getD 0))).filter
    (fun r => 0 < r.shifts) |> sortDesc).take 3

/-- Number of completed shifts referencing a given workplace id; the value
the counting map yields for that id (proved below). -/
def completedCount (parse : String → Option Int) (now : Int)
    (shifts : List Shift) (id : Int) : Nat :=
  ((shifts.filter (isShiftCompleted parse now)).filter
    (fun s => s.workplaceId == id)).length

/-- Lower-case hexadecimal digit, for JSON control-character escapes. -/
def hexDigit (n : Nat) : Char :=
  if n < 10 then Char.ofNat (48 + n) else Char.ofNat (87 + n)

/-- Escape one character the way `JSON.stringify` quotes string values. -/
def escapeJsonChar (c : Char) : String :=
  if c = '"' then "\\\""
  else if c = '\\' then "\\\\"
  else if c = '\n' then "\\n"
  else if c = '\r' then "\\r"
  else if c = '\t' then "\\t"
  else if c = '\x08' then "\\b"
  else if c = '\x0c' then "\\f"
  else if c.toNat < 32 then
    "\\u00" ++ String.singleton (hexDigit (c.toNat / 16)) ++
      String.singleton (hexDigit (c.toNat % 16))
  else String.singleton c

/-- Escape a whole string the way `JSON.stringify` quotes string values. -/
def escapeJsonString (s : String) : String :=
  String.join (s.toList.map escapeJsonChar)

/-- Render one result object as `JSON.stringify(results, null, 2)` renders
an array element at depth 1: two-space indentation, keys in declaration
order. -/
def renderResult (r : WorkplaceResult) : String :=
  "  \x7b\n    \"name\": \"" ++ escapeJsonString r.name ++
    "\",\n    \"shifts\": " ++ toString r.shifts ++ "\n  \x7d"

/-- Render the whole result array as `JSON.stringify(results, null, 2)`
(line 177): `[]` for the empty array, otherwise elements joined by
`,\n` inside brackets on their own lines. -/
def renderResults (rs : List WorkplaceResult) : String :=
  match rs with
  | [] => "[]"
  | _ => "[\n" ++ String.intercalate ",\n" (rs.map renderResult) ++ "\n]"

/-- Embedding of `main` (lines 174-182) over the two page-level fetch
oracles: await both pagination runs (`Promise.all`); if both succeed,
`console.log` the pretty-printed aggregation result once and exit 0; if
either fails, catch the error and `process.exit(1)` with nothing written.
The result pairs the list of stdout writes with the exit code; `none`
means the run never terminates (a pagination loop that exhausts its
fuel with no failure observed on the other run). -/
def mainRun (fetchW : String → Except FetchError (Page Workplace))
    (fetchS : String → Except FetchError (Page Shift))
    (parse : String → Option Int) (now : Int)
    (fuelW fuelS : Nat) : Option (List String × Nat) :=
  match fetchAllWorkplaces fetchW fuelW, fetchAllShifts fetchS fuelS with
  | some (.ok (workplaces, _)), some (.ok (shifts, _)) =>
    some ([renderResults (getTopWorkplaces parse now workplaces shifts)], 0)
  | some (.error _), _ => some ([], 1)
  | _, some (.error _) => some ([], 1)
  | _, _ => none

/-- A finite chain of pages reachable through `fetch` from a starting URL:
`PageChain fetch url urls datas` states that fetching along the successive
next-page locators starting at `url` visits exactly the URLs in `urls`
(in order) and yields the item arrays `datas` (in order), with only the
last page carrying an absent locator. -/
inductive PageChain (fetch : String → Except FetchError (Page α)) :
    String → List String → List (List α) → Prop
  | last (url : String) (d : List α) :
      fetch url = .ok ⟨d, none⟩ → PageChain fetch url [url] [d]
  | cons (url nextUrl : String) (d : List α) (urls : List String)
      (datas : List (List α)) :
      fetch url = .ok ⟨d, some nextUrl⟩ →
      PageChain fetch nextUrl urls datas →
      PageChain fetch url (url :: urls) (d :: datas)

/-- Date parser for the concrete end-to-end scenario: the scenario's one
date string parses to its epoch-milliseconds value, anything else is an
invalid date. -/
def parseEx : String → Option Int := fun s =>
  if s == "2000-01-01T00:00:00Z" then some 946684800000 else none

/-- Reference time for the concrete scenario (later than the shifts'
end time). -/
def nowEx : Int := 1700000000000

/-- Scenario workplaces: A and B active, C inactive. -/
def workplacesEx : List Workplace :=
  [Workplace.mk 1 "A" 0, Workplace.mk 2 "B" 0, Workplace.mk 3 "C" 1]

/-- Scenario shifts: five completed at workplace 1, two at workplace 2,
one at workplace 3, all assigned, uncancelled, and ended in the past. -/
def shiftsEx : List Shift :=
  [Shift.mk 1 1 (some 10) none "2000-01-01T00:00:00Z",
   Shift.mk 2 1 (some 11) none "2000-01-01T00:00:00Z",
   Shift.mk 3 1 (some 12) none "2000-01-01T00:00:00Z",
   Shift.mk 4 1 (some 13) none "2000-01-01T00:00:00Z",
   Shift.mk 5 1 (some 14) none "2000-01-01T00:00:00Z",
   Shift.mk 6 2 (some 15) none "2000-01-01T00:00:00Z",
   Shift.mk 7 2 (some 16) none "2000-01-01T00:00:00Z",
   Shift.mk 8 3 (some 17) none "2000-01-01T00:00:00Z"]

/-- Scenario workplaces oracle: one single page holding all workplaces. -/
def fetchWEx : String → Except FetchError (Page Workplace) := fun _ =>
  .ok (Page.mk workplacesEx none)

/-- Scenario shifts oracle: one single page holding all shifts. -/
def fetchSEx : String → Except FetchError (Page Shift) := fun _ =>
  .ok (Page.mk shiftsEx none)

/-- Failing shifts oracle: every request answers HTTP 500. -/
def fetchSFailEx : String → Except FetchError (Page Shift) := fun _ =>
  .error (.httpStatus 500)

/-- Three-page oracle for the pagination scenario: only the last page has
an absent next-page locator. -/
def fetchPagesEx : String → Except FetchError (Page Nat) := fun url =>
  if url == "pageOne" then .ok (Page.mk [1, 2] (some "pageTwo"))
  else if url == "pageTwo" then .ok (Page.mk [3] (some "pageThree"))
  else if url == "pageThree" then .ok (Page.mk [4, 5] none)
  else .error .transport

/-! ### Helper lemmas: the counting map -/

/-- Looking up the key just set yields the value just set. -/
theorem mapGet_mapSet_self (m : List (Int × Nat)) (k : Int) (v : Nat) :
    mapGet (mapSet m k v) k = some v := by
  induction m with
  | nil => simp [mapSet, mapGet]
  | cons hd tl ih =>
    obtain ⟨key, v₀⟩ := hd
    by_cases h : key = k
    · simp [mapSet, mapGet, h]
    · simp [mapSet, mapGet, h, ih]

/-- Setting one key leaves every other key's lookup unchanged. -/
theorem mapGet_mapSet_ne (m : List (Int × Nat)) (k k' : Int) (v : Nat)
    (h : k ≠ k') : mapGet (mapSet m k v) k' = mapGet m k' := by
  induction m with
  | nil => simp [mapSet, mapGet, h]
  | cons hd tl ih =>
    obtain ⟨key, v₀⟩ := hd
    by_cases hk : key = k
    · subst hk; simp [mapSet, mapGet, h]
    · simp [mapSet, mapGet, hk, ih]

/-- Invariant of the counting fold: after processing `l` on top of map `m`,
the count stored under `k` is the old count plus the number of shifts of
`l` whose `workplaceId` is `k`. -/
theorem foldCounts_get (l : List Shift) (m : List (Int × Nat)) (k : Int) :
    (mapGet (l.foldl
        (fun m s => mapSet m s.workplaceId ((mapGet m s.workplaceId).getD 0 + 1)) m)
      k).getD 0
      = (mapGet m k).getD 0 + (l.filter (fun s => s.workplaceId == k)).length := by
  induction l generalizing m with
  | nil => simp
  | cons s l ih =>
    simp only [List.foldl_cons]
    rw [ih]
    by_cases h : s.workplaceId = k
    · subst h
      rw [mapGet_mapSet_self]
      simp [List.filter_cons]
      omega
    · rw [mapGet_mapSet_ne _ _ _ _ h]
      simp [List.filter_cons, h]

/-- The counting map of lines 153-158 stores, under each id, the number of
completed shifts referencing that id. -/
theorem buildCounts_get (l : List Shift) (k : Int) :
    (mapGet (buildCounts l) k).getD 0 = (l.filter (fun s => s.workplaceId == k)).length := by
  simpa [mapGet] using foldCounts_get l [] k

/-! ### Helper lemmas: the stable descending sort -/

/-- Inserting is a permutation with consing. -/
theorem insertDesc_perm (x : WorkplaceResult) (l : List WorkplaceResult) :
    List.Perm (insertDesc x l) (x :: l) := by
  induction l with
  | nil => rfl
  | cons y ys ih =>
    simp only [insertDesc]
    by_cases h : y.shifts ≤ x.shifts
    · rw [if_pos h]
    · rw [if_neg h]
      exact (ih.cons y).trans (List.Perm.swap x y ys)

/-- `sortDesc` permutes its input. -/
theorem sortDesc_perm (l : List WorkplaceResult) : List.Perm (sortDesc l) l := by
  induction l with
  | nil => rfl
  | cons x xs ih => exact (insertDesc_perm x (sortDesc xs)).trans (ih.cons x)

/-- Membership through insertion. -/
theorem mem_insertDesc (a x : WorkplaceResult) (l : List WorkplaceResult) :
    a ∈ insertDesc x l ↔ a = x ∨ a ∈ l := by
  rw [(insertDesc_perm x l).mem_iff, List.mem_cons]

/-- Inserting into a descending list keeps it descending. -/
theorem insertDesc_pairwise (x : WorkplaceResult) (l : List WorkplaceResult)
    (h : l.Pairwise (fun a b => b.shifts ≤ a.shifts)) :
    (insertDesc x l).Pairwise (fun a b => b.shifts ≤ a.shifts) := by
  induction l with
  | nil => simp [insertDesc]
  | cons y ys ih =>
    rw [List.pairwise_cons] at h
    obtain ⟨hy, hys⟩ := h
    simp only [insertDesc]
    by_cases hle : y.shifts ≤ x.shifts
    · rw [if_pos hle]
      refine List.Pairwise.cons ?_ (List.Pairwise.cons hy hys)
      intro z hz
      rcases List.mem_cons.mp hz with rfl | hz
      · exact hle
      · exact le_trans (hy z hz) hle
    · rw [if_neg hle]
      refine List.Pairwise.cons ?_ (ih hys)
      intro z hz
      rcases (mem_insertDesc z x ys).mp hz with rfl | hz
      · exact Nat.le_of_lt (Nat.lt_of_not_le hle)
      · exact hy z hz

/-- `sortDesc` sorts by `shifts`, non-increasing. -/
theorem sortDesc_pairwise (l : List WorkplaceResult) :
    (sortDesc l).Pairwise (fun a b => b.shifts ≤ a.shifts) := by
  induction l with
  | nil => simp [sortDesc]
  | cons x xs ih => exact insertDesc_pairwise x (sortDesc xs) ih

/-- Stability of insertion: restricted to the entries of one count value,
inserting either puts the new entry first (when it has that count) or
leaves the restriction unchanged. -/
theorem filter_insertDesc (k : Nat) (x : WorkplaceResult) (l : List WorkplaceResult) :
    (insertDesc x l).filter (fun e => e.shifts == k)
      = if x.shifts == k then x :: l.filter (fun e => e.shifts == k)
        else l.filter (fun e => e.shifts == k) := by
  induction l with
  | nil =>
    by_cases hx : x.shifts = k <;> simp [insertDesc, List.filter_cons, hx]
  | cons y ys ih =>
    simp only [insertDesc]
    by_cases hle : y.shifts ≤ x.shifts
    · rw [if_pos hle, List.filter_cons]
    · rw [if_neg hle, List.filter_cons, List.filter_cons]
      by_cases hy : y.shifts = k
      · have hx : x.shifts ≠ k := by
          intro hx
          exact hle (hy ▸ hx ▸ Nat.le_refl _)
        simp [hy, hx, ih]
      · by_cases hx : x.shifts = k <;> simp [hy, hx, ih]

/-- Stability of `sortDesc`: the entries holding any one count value keep
their original relative order. -/
theorem filter_sortDesc (k : Nat) (l : List WorkplaceResult) :
    (sortDesc l).filter (fun e => e.shifts == k) = l.filter (fun e => e.shifts == k) := by
  induction l with
  | nil => rfl
  | cons x xs ih =>
    simp only [sortDesc]
    rw [filter_insertDesc, List.filter_cons]
    by_cases h : x.shifts = k <;> simp [h, ih]

/-! ### Helper lemmas: the aggregation pipeline -/

/-- The list built on lines 161-166 before sorting and truncation: active
workplaces mapped to name/count pairs, zero counts dropped. -/
def resultsBeforeSort (parse : String → Option Int) (now : Int)
    (workplaces : List Workplace) (shifts : List Shift) : List WorkplaceResult :=
  ((workplaces.filter (fun w => w.status == 0)).map
      (fun w => WorkplaceResult.mk w.name
        ((mapGet (buildCounts (shifts.filter (isShiftCompleted parse now))) w.id).getD 0))).filter
    (fun r => 0 < r.shifts)

/-- The pipeline is the sorted, truncated pre-sort list. -/
theorem getTopWorkplaces_eq (parse : String → Option Int) (now : Int)
    (workplaces : List Workplace) (shifts : List Shift) :
    getTopWorkplaces parse now workplaces shifts
      = (sortDesc (resultsBeforeSort parse now workplaces shifts)).take 3 := rfl

/-- Every entry of the final result has a strictly positive count and comes
from an active workplace of the input, carrying that workplace's name and
its completed-shift count. -/
theorem mem_getTopWorkplaces (parse : String → Option Int) (now : Int)
    (workplaces : List Workplace) (shifts : List Shift) (e : WorkplaceResult)
    (he : e ∈ getTopWorkplaces parse now workplaces shifts) :
    0 < e.shifts ∧ ∃ w, w ∈ workplaces ∧ w.status = 0 ∧ e.name = w.name ∧
      e.shifts = completedCount parse now shifts w.id := by
  rw [getTopWorkplaces_eq] at he
  have h1 : e ∈ sortDesc (resultsBeforeSort parse now workplaces shifts) :=
    List.mem_of_mem_take he
  have h2 : e ∈ resultsBeforeSort parse now workplaces shifts :=
    (sortDesc_perm _).mem_iff.mp h1
  unfold resultsBeforeSort at h2
  rw [List.mem_filter] at h2
  obtain ⟨hmem, hpos⟩ := h2
  rw [List.mem_map] at hmem
  obtain ⟨w, hw, rfl⟩ := hmem
  rw [List.mem_filter] at hw
  obtain ⟨hwin, hst⟩ := hw
  refine ⟨by simpa using hpos, w, hwin, by simpa using hst, rfl, ?_⟩
  simp only [completedCount]
  exact buildCounts_get _ _

/-! ### Helper lemmas: pagination -/

/-- Running the pagination loop along a finite page chain with enough fuel
appends all the chain's items to the accumulator and all its URLs to the
request log, in order. -/
theorem fetchAllPagesAux_chain {α : Type} (fetch : String → Except FetchError (Page α))
    {url : String} {urls : List String} {datas : List (List α)}
    (h : PageChain fetch url urls datas) :
    ∀ fuel acc log, urls.length ≤ fuel →
      fetchAllPagesAux fetch fuel url acc log
        = some (.ok (acc ++ datas.flatten, log ++ urls)) := by
  induction h with
  | last url d hfetch =>
    intro fuel acc log hf
    cases fuel with
    | zero => simp at hf
    | succ f => simp [fetchAllPagesAux, hfetch]
  | cons url nextUrl d urls datas hfetch hchain ih =>
    intro fuel acc log hf
    cases fuel with
    | zero => simp at hf
    | succ f =>
      simp only [fetchAllPagesAux, hfetch]
      rw [ih f (acc ++ d) (log ++ [url]) (by simpa using hf)]
      simp

/-! ### Claim theorems -/

/-- C1: for every shift and reference time `now`, `isShiftCompleted`
returns true if and only if the shift's `workerId` is present, its
`cancelledAt` is absent, and its `endAt` timestamp is strictly before
`now`. -/
theorem isShiftCompleted_iff (parse : String → Option Int) (now : Int) (s : Shift) :
    isShiftCompleted parse now s = true ↔
      s.workerId.isSome = true ∧ s.cancelledAt = none ∧
        ∃ endTime, parse s.endAt = some endTime ∧ endTime < now := by
  unfold isShiftCompleted
  cases hp : parse s.endAt with
  | none => simp [hp]
  | some t => simp [hp, Option.isNone_iff_eq_none, and_assoc]

/-- C8: a shift whose `endAt` string does not parse as a valid timestamp is
never classified as completed, whatever the reference time: the JS
comparison of an Invalid Date (NaN) is always false. -/
theorem isShiftCompleted_invalid_date (parse : String → Option Int) (now : Int)
    (s : Shift) (h : parse s.endAt = none) :
    isShiftCompleted parse now s = false := by
  unfold isShiftCompleted
  rw [h]
  simp

/-- Witness for C8: a concrete assigned, uncancelled shift whose end date
string is unparseable is not completed. -/
theorem isShiftCompleted_invalid_date_witness :
    isShiftCompleted (fun _ => none) 1700000000000
      (Shift.mk 1 1 (some 10) none "not-a-date") = false :=
  isShiftCompleted_invalid_date (fun _ => none) 1700000000000
    (Shift.mk 1 1 (some 10) none "not-a-date") rfl

/-- C4: `fetchJson` returns the parsed JSON value exactly when the status
code is in [200, 300) and the body parses; it fails with a parse error
exactly when the status is a success but the body is invalid JSON, with an
HTTP-status error carrying the observed code exactly when the status is
outside [200, 300), and with a transport error exactly when the connection
fails before a response completes. -/
theorem fetchJson_spec {α : Type} (parseJson : String → Option α) (o : HttpOutcome) :
    (∀ v, fetchJson parseJson o = .ok v ↔
        ∃ s b, o = .response s b ∧ 200 ≤ s ∧ s < 300 ∧ parseJson b = some v) ∧
    (fetchJson parseJson o = .error .jsonParse ↔
        ∃ s b, o = .response s b ∧ 200 ≤ s ∧ s < 300 ∧ parseJson b = none) ∧
    (∀ s, fetchJson parseJson o = .error (.httpStatus s) ↔
        ∃ b, o = .response s b ∧ ¬(200 ≤ s ∧ s < 300)) ∧
    (fetchJson parseJson o = .error .transport ↔ o = .transportFailure) := by
  cases o with
  | transportFailure => simp [fetchJson]
  | response s b =>
    have hcond : (s != 0 && decide (200 ≤ s) && decide (s < 300)) = true
        ↔ (200 ≤ s ∧ s < 300) := by
      simp [bne_iff_ne]
      omega
    simp only [fetchJson]
    by_cases hs : 200 ≤ s ∧ s < 300
    · rw [if_pos (hcond.mpr hs)]
      cases hpb : parseJson b with
      | some v =>
        refine ⟨?_, ?_, ?_, ?_⟩
        · intro w
          constructor
          · intro h
            refine ⟨s, b, rfl, hs.1, hs.2, ?_⟩
            rw [Except.ok.injEq] at h
            rw [hpb, h]
          · rintro ⟨s', b', heq, -, -, hp⟩
            injection heq with e1 e2
            subst e1
            subst e2
            rw [hpb, Option.some.injEq] at hp
            rw [hp]
        · constructor
          · intro h
            exact Except.noConfusion h
          · rintro ⟨s', b', heq, -, -, hp⟩
            injection heq with e1 e2
            subst e1
            subst e2
            rw [hpb] at hp
            exact Option.noConfusion hp
        · intro s'
          constructor
          · intro h
            exact Except.noConfusion h
          · rintro ⟨b', heq, hrange⟩
            injection heq with e1 e2
            subst e1
            exact absurd hs hrange
        · constructor
          · intro h
            exact Except.noConfusion h
          · intro h
            exact HttpOutcome.noConfusion h
      | none =>
        refine ⟨?_, ?_, ?_, ?_⟩
        · intro w
          constructor
          · intro h
            exact Except.noConfusion h
          · rintro ⟨s', b', heq, -, -, hp⟩
            injection heq with e1 e2
            subst e1
            subst e2
            rw [hpb] at hp
            exact Option.noConfusion hp
        · constructor
          · intro _
            exact ⟨s, b, rfl, hs.1, hs.2, hpb⟩
          · intro _
            rfl
        · intro s'
          constructor
          · intro h
            injection h with h'
            exact FetchError.noConfusion h'
          · rintro ⟨b', heq, hrange⟩
            injection heq with e1 e2
            subst e1
            exact absurd hs hrange
        · constructor
          · intro h
            injection h with h'
            exact FetchError.noConfusion h'
          · intro h
            exact HttpOutcome.noConfusion h
    · rw [if_neg (fun hc => hs (hcond.mp hc))]
      refine ⟨?_, ?_, ?_, ?_⟩
      · intro w
        constructor
        · intro h
          exact Except.noConfusion h
        · rintro ⟨s', b', heq, h1, h2, -⟩
          injection heq with e1 e2
          subst e1
          exact absurd ⟨h1, h2⟩ hs
      · constructor
        · intro h
          injection h with h'
          exact FetchError.noConfusion h'
        · rintro ⟨s', b', heq, h1, h2, -⟩
          injection heq with e1 e2
          subst e1
          exact absurd ⟨h1, h2⟩ hs
      · intro s'
        constructor
        · intro h
          injection h with h'
          injection h' with h''
          subst h''
          exact ⟨b, rfl, hs⟩
        · rintro ⟨b', heq, -⟩
          injection heq with e1 e2
          subst e1
          rfl
      · constructor
        · intro h
          injection h with h'
          exact FetchError.noConfusion h'
        · intro h
          exact HttpOutcome.noConfusion h

/-- C10: the aggregation pipeline is deterministic — two evaluations on
equal parse functions, reference times, workplace lists and shift lists
produce identical result sequences (the pipeline is pure: its only inputs
are these four values). -/
theorem getTopWorkplaces_deterministic (p₁ p₂ : String → Option Int) (n₁ n₂ : Int)
    (ws₁ ws₂ : List Workplace) (ss₁ ss₂ : List Shift)
    (hp : p₁ = p₂) (hn : n₁ = n₂) (hw : ws₁ = ws₂) (hs : ss₁ = ss₂) :
    getTopWorkplaces p₁ n₁ ws₁ ss₁ = getTopWorkplaces p₂ n₂ ws₂ ss₂ := by
  subst hp hn hw hs
  rfl

/-- Witness for C10: two evaluations of the pipeline on the same concrete
inputs coincide. -/
theorem getTopWorkplaces_deterministic_witness :
    getTopWorkplaces parseEx nowEx workplacesEx shiftsEx
      = getTopWorkplaces parseEx nowEx workplacesEx shiftsEx :=
  getTopWorkplaces_deterministic parseEx parseEx nowEx nowEx workplacesEx
    workplacesEx shiftsEx shiftsEx rfl rfl rfl rfl

/-- C2: every result sequence the aggregation returns contains only
entries arising from status-0 workplaces with strictly positive
completed-shift counts, has length at most 3, and its shift counts are
non-increasing from first to last entry. -/
theorem getTopWorkplaces_invariants (parse : String → Option Int) (now : Int)
    (workplaces : List Workplace) (shifts : List Shift) :
    (∀ e ∈ getTopWorkplaces parse now workplaces shifts,
        0 < e.shifts ∧ ∃ w, w ∈ workplaces ∧ w.status = 0 ∧ e.name = w.name ∧
          e.shifts = completedCount parse now shifts w.id) ∧
    (getTopWorkplaces parse now workplaces shifts).length ≤ 3 ∧
    (getTopWorkplaces parse now workplaces shifts).Pairwise
      (fun a b => b.shifts ≤ a.shifts) := by
  refine ⟨fun e he => mem_getTopWorkplaces parse now workplaces shifts e he, ?_, ?_⟩
  · rw [getTopWorkplaces_eq]
    exact List.length_take_le 3 _
  · rw [getTopWorkplaces_eq]
    exact (sortDesc_pairwise _).sublist (List.take_sublist 3 _)

/-- Witness for C2: the invariants instantiated on the concrete scenario,
with the membership hypothesis discharged on the top entry. -/
theorem getTopWorkplaces_invariants_witness :
    (0 < (WorkplaceResult.mk "A" 5).shifts ∧
      ∃ w, w ∈ workplacesEx ∧ w.status = 0 ∧
        (WorkplaceResult.mk "A" 5).name = w.name ∧
        (WorkplaceResult.mk "A" 5).shifts = completedCount parseEx nowEx shiftsEx w.id) ∧
    (getTopWorkplaces parseEx nowEx workplacesEx shiftsEx).length ≤ 3 ∧
    (getTopWorkplaces parseEx nowEx workplacesEx shiftsEx).Pairwise
      (fun a b => b.shifts ≤ a.shifts) :=
  ⟨(getTopWorkplaces_invariants parseEx nowEx workplacesEx shiftsEx).1
      (WorkplaceResult.mk "A" 5) (by decide),
   (getTopWorkplaces_invariants parseEx nowEx workplacesEx shiftsEx).2.1,
   (getTopWorkplaces_invariants parseEx nowEx workplacesEx shiftsEx).2.2⟩

/-- C6: every completed shift is counted in the id-to-count mapping under
its `workplaceId` — matching an active workplace or not — yet every entry
of the result arises from an active (status-0) workplace, because the
result is built only by mapping over the active workplaces. -/
theorem completed_counted_only_active_surface (parse : String → Option Int)
    (now : Int) (workplaces : List Workplace) (shifts : List Shift) :
    (∀ s ∈ shifts, isShiftCompleted parse now s = true →
        0 < (mapGet (buildCounts (shifts.filter (isShiftCompleted parse now)))
            s.workplaceId).getD 0) ∧
    (∀ e ∈ getTopWorkplaces parse now workplaces shifts,
        ∃ w, w ∈ workplaces.filter (fun w => w.status == 0) ∧ e.name = w.name ∧
          e.shifts = completedCount parse now shifts w.id) := by
  constructor
  · intro s hs hc
    rw [buildCounts_get]
    have hmem : s ∈ (shifts.filter (isShiftCompleted parse now)).filter
        (fun t => t.workplaceId == s.workplaceId) := by
      rw [List.mem_filter, List.mem_filter]
      exact ⟨⟨hs, hc⟩, by simp⟩
    exact List.length_pos.mpr (List.ne_nil_of_mem hmem)
  · intro e he
    obtain ⟨-, w, hw, hst, hname, hcount⟩ :=
      mem_getTopWorkplaces parse now workplaces shifts e he
    exact ⟨w, List.mem_filter.mpr ⟨hw, by simp [hst]⟩, hname, hcount⟩

/-- Witness for C6: on the concrete scenario, the completed shift at the
inactive workplace 3 is counted in the mapping, and the top entry arises
from an active workplace. -/
theorem completed_counted_only_active_surface_witness :
    0 < (mapGet (buildCounts (shiftsEx.filter (isShiftCompleted parseEx nowEx)))
        (Shift.mk 8 3 (some 17) none "2000-01-01T00:00:00Z").workplaceId).getD 0 ∧
    ∃ w, w ∈ workplacesEx.filter (fun w => w.status == 0) ∧
      (WorkplaceResult.mk "A" 5).name = w.name ∧
      (WorkplaceResult.mk "A" 5).shifts = completedCount parseEx nowEx shiftsEx w.id :=
  ⟨(completed_counted_only_active_surface parseEx nowEx workplacesEx shiftsEx).1
      (Shift.mk 8 3 (some 17) none "2000-01-01T00:00:00Z") (by decide) (by decide),
   (completed_counted_only_active_surface parseEx nowEx workplacesEx shiftsEx).2
      (WorkplaceResult.mk "A" 5) (by decide)⟩

/-- C9: the sort is stable — entries of the result holding any one count
value occur as a subsequence of the active workplaces mapped to their
name/count records in the order the workplaces were fetched, so tied
entries keep the fetched relative order. -/
theorem tie_order_stable (parse : String → Option Int) (now : Int)
    (workplaces : List Workplace) (shifts : List Shift) (k : Nat) :
    List.Sublist
      ((getTopWorkplaces parse now workplaces shifts).filter (fun e => e.shifts == k))
      ((workplaces.filter (fun w => w.status == 0)).map
        (fun w => WorkplaceResult.mk w.name
          ((mapGet (buildCounts (shifts.filter (isShiftCompleted parse now)))
            w.id).getD 0))) := by
  rw [getTopWorkplaces_eq]
  have h1 : List.Sublist
      (((sortDesc (resultsBeforeSort parse now workplaces shifts)).take 3).filter
        (fun e => e.shifts == k))
      ((sortDesc (resultsBeforeSort parse now workplaces shifts)).filter
        (fun e => e.shifts == k)) :=
    (List.take_sublist 3 _).filter _
  rw [filter_sortDesc] at h1
  refine h1.trans ?_
  refine (List.filter_sublist _).trans ?_
  unfold resultsBeforeSort
  exact List.filter_sublist _

/-- C3: along any finite page chain in which only the last page has an
absent next locator, the paginator run with enough fuel returns the
concatenation of all pages' item arrays in page order, its request log is
exactly the chain's URLs in order (requests are issued strictly
sequentially, one per page), and when the URLs are distinct each is
requested exactly once. -/
theorem paginator_spec {α : Type} (fetch : String → Except FetchError (Page α))
    (url : String) (urls : List String) (datas : List (List α)) (fuel : Nat)
    (h : PageChain fetch url urls datas) (hfuel : urls.length ≤ fuel) :
    fetchAllPages fetch fuel url = some (.ok (datas.flatten, urls)) ∧
      (urls.Nodup → ∀ u ∈ urls, urls.count u = 1) := by
  constructor
  · simpa [fetchAllPages] using fetchAllPagesAux_chain fetch h fuel [] [] hfuel
  · intro hnd u hu
    exact List.count_eq_one_of_mem hnd hu

/-- The concrete three-page chain served by `fetchPagesEx`. -/
theorem pageChainEx :
    PageChain fetchPagesEx "pageOne" ["pageOne", "pageTwo", "pageThree"]
      [[1, 2], [3], [4, 5]] :=
  PageChain.cons "pageOne" "pageTwo" [1, 2] _ _ rfl
    (PageChain.cons "pageTwo" "pageThree" [3] _ _ rfl
      (PageChain.last "pageThree" [4, 5] rfl))

/-- Witness for C3: on the mocked 3-page sequence, the paginator issues
exactly the three requests in order and returns the three pages' items
concatenated in page order, each page requested exactly once. -/
theorem paginator_spec_witness :
    fetchAllPages fetchPagesEx 3 "pageOne"
        = some (.ok ([1, 2, 3, 4, 5], ["pageOne", "pageTwo", "pageThree"])) ∧
      (["pageOne", "pageTwo", "pageThree"] : List String).count "pageTwo" = 1 :=
  ⟨(paginator_spec fetchPagesEx "pageOne" _ _ 3 pageChainEx (by decide)).1,
   (paginator_spec fetchPagesEx "pageOne" _ _ 3 pageChainEx (by decide)).2
      (by decide) "pageTwo" (by decide)⟩

/-- C5: if both pagination runs succeed, the entry point writes exactly
one pretty-printed JSON array of at most 3 result objects to standard
output and exits 0; if either run fails — transport, HTTP status or parse
error — it exits with status 1 having written nothing. -/
theorem main_spec (fetchW : String → Except FetchError (Page Workplace))
    (fetchS : String → Except FetchError (Page Shift))
    (parse : String → Option Int) (now : Int) (fuelW fuelS : Nat) :
    (∀ ws logW ss logS,
        fetchAllWorkplaces fetchW fuelW = some (.ok (ws, logW)) →
        fetchAllShifts fetchS fuelS = some (.ok (ss, logS)) →
        mainRun fetchW fetchS parse now fuelW fuelS
            = some ([renderResults (getTopWorkplaces parse now ws ss)], 0) ∧
          (getTopWorkplaces parse now ws ss).length ≤ 3) ∧
    (∀ e, fetchAllWorkplaces fetchW fuelW = some (.error e) →
        mainRun fetchW fetchS parse now fuelW fuelS = some ([], 1)) ∧
    (∀ e, fetchAllShifts fetchS fuelS = some (.error e) →
        mainRun fetchW fetchS parse now fuelW fuelS = some ([], 1)) := by
  refine ⟨?_, ?_, ?_⟩
  · intro ws logW ss logS hw hs
    constructor
    · simp only [mainRun, hw, hs]
    · rw [getTopWorkplaces_eq]
      exact List.length_take_le 3 _
  · intro e hw
    simp only [mainRun, hw]
  · intro e hs
    rcases hw : fetchAllWorkplaces fetchW fuelW with - | r
    · simp only [mainRun, hw, hs]
    · rcases r with e' | ⟨ws, logW⟩
      · simp only [mainRun, hw]
      · simp only [mainRun, hw, hs]

/-- Witness for C5: with single-page success oracles the scenario run
writes the rendered result once and exits 0; with the shifts endpoint
answering HTTP 500 the run writes nothing and exits 1. -/
theorem main_spec_witness :
    mainRun fetchWEx fetchSEx parseEx nowEx 1 1
        = some ([renderResults (getTopWorkplaces parseEx nowEx workplacesEx shiftsEx)], 0) ∧
      mainRun fetchWEx fetchSFailEx parseEx nowEx 1 1 = some ([], 1) :=
  ⟨((main_spec fetchWEx fetchSEx parseEx nowEx 1 1).1 workplacesEx [workplacesUrl]
      shiftsEx [shiftsUrl] rfl rfl).1,
   (main_spec fetchWEx fetchSFailEx parseEx nowEx 1 1).2.2 (.httpStatus 500) rfl⟩

/-- C7: on the concrete scenario — workplaces A, B active and C inactive,
with 5, 2 and 1 completed shifts respectively — the program outputs
exactly the entries for A (5 shifts) and B (2 shifts), excluding C
despite its completed shift. -/
theorem end_to_end_scenario :
    getTopWorkplaces parseEx nowEx workplacesEx shiftsEx
        = [WorkplaceResult.mk "A" 5, WorkplaceResult.mk "B" 2] ∧
      mainRun fetchWEx fetchSEx parseEx nowEx 1 1
        = some ([renderResults
            [WorkplaceResult.mk "A" 5, WorkplaceResult.mk "B" 2]], 0) := by
  constructor
  · rfl
  · rfl
